import Mathlib

/-!
Shallow embedding of `src/server.js` (Sales-Resolve1): an Express backend
with a rate-limited `POST /api/contact` route that validates, sanitizes and
persists contact messages to a JSON file, and a Basic-Auth protected
`GET /api/messages` route returning the persisted collection.

Text is modelled as `List Char`; clock instants (`Date.now()` and the
`receivedAt` ISO timestamp, taken at the same instant) are modelled as a
single natural number, since ISO-8601 strings order exactly as the numeric
clock values they render.
-/

/-- JavaScript request-body values relevant to the contact route: the three
fields may arrive as any JSON value (or be absent, i.e. `undefined`). -/
inductive JsValue where
  | undef
  | nullV
  | boolV (b : Bool)
  | numV (n : Int)
  | strV (s : String)
  | objV
deriving DecidableEq

/-- JavaScript truthiness, as used by `!name || !email || !message` and by
`if (!s)` in `sanitizeString`. -/
def truthy : JsValue → Bool
  | .undef => false
  | .nullV => false
  | .boolV b => b
  | .numV n => n ≠ 0
  | .strV s => s ≠ ""
  | .objV => true

/-- JavaScript `String(v)` coercion, producing the character list of the
resulting string. A generic object coerces to "[object Object]". -/
def jsToString : JsValue → List Char
  | .undef => "undefined".data
  | .nullV => "null".data
  | .boolV b => if b then "true".data else "false".data
  | .numV n => (toString n).data
  | .strV s => s.data
  | .objV => "[object Object]".data

/-- One global `String.prototype.replace(/c/g, r)` pass: every occurrence of
the character `c` is replaced by the string `r`. -/
def replaceAll (s : List Char) (c : Char) (r : List Char) : List Char :=
  s.flatMap fun x => if x = c then r else [x]

/-- JavaScript `String.prototype.trim()`: leading and trailing whitespace
removed. -/
def jsTrim (s : List Char) : List Char :=
  ((s.dropWhile Char.isWhitespace).reverse.dropWhile Char.isWhitespace).reverse

/-- Embeds `sanitizeString` (src/server.js lines 62-65): falsy input yields
the empty string; otherwise the value is coerced with `String(s)`, trimmed,
then `<` is globally replaced by `&lt;` and `>` by `&gt;`. -/
def sanitizeString (v : JsValue) : List Char :=
  if truthy v then
    replaceAll (replaceAll (jsTrim (jsToString v)) '<' "&lt;".data) '>' "&gt;".data
  else
    []

/-- A persisted contact message, as built in src/server.js lines 79-86.
`id` and `receivedAt` both record the clock at append time. -/
structure Message where
  id : Nat
  name : List Char
  email : List Char
  message : List Char
  ip : List Char
  receivedAt : Nat
deriving DecidableEq

/-- State of the persisted `data/messages.json` file: absent, present but not
parseable as JSON, or a well-formed JSON array of messages. -/
inductive FileState where
  | absent
  | malformed (raw : List Char)
  | wellFormed (msgs : List Message)
deriving DecidableEq

/-- Embeds `readMessages` (src/server.js lines 48-56): reads and parses the
file inside a try/catch; any failure (missing file, malformed JSON) is caught
and an empty array is returned. -/
def readMessages : FileState → List Message
  | .absent => []
  | .malformed _ => []
  | .wellFormed msgs => msgs

/-- The three destructured fields of `req.body || {}`. -/
structure ContactBody where
  name : JsValue
  email : JsValue
  message : JsValue
deriving DecidableEq

/-- Outcome of the `POST /api/contact` handler body: a 400 validation error
with its message, or success with the stored message. -/
inductive PostResult where
  | badRequest (error : List Char)
  | ok (stored : Message)
deriving DecidableEq

/-- The sanitized message object built at src/server.js lines 79-86 for a
request arriving at clock instant `now` from address `ip`. -/
def storedOf (now : Nat) (ip : List Char) (body : ContactBody) : Message :=
  { id := now
    name := sanitizeString body.name
    email := sanitizeString body.email
    message := sanitizeString body.message
    ip := ip
    receivedAt := now }

/-- Embeds the `POST /api/contact` handler (src/server.js lines 68-97):
validation of the three fields and of `String(message).length`, then the
read-modify-write cycle `readMessages(); unshift; writeMessages()`. The
handler body is fully synchronous (readFileSync/writeFileSync, no await), so
the Node event loop runs it atomically; concurrent requests are therefore
modelled as sequential compositions of this step. -/
def postContact (now : Nat) (ip : List Char) (body : ContactBody)
    (fs : FileState) : PostResult × FileState :=
  if !truthy body.name || !truthy body.email || !truthy body.message then
    (.badRequest "Name, email and message are required.".data, fs)
  else if 5000 < (jsToString body.message).length then
    (.badRequest "Message too long.".data, fs)
  else
    (.ok (storedOf now ip body),
     .wellFormed (storedOf now ip body :: readMessages fs))

/-- A contact request: its arrival instant, source address and body. -/
structure Req where
  now : Nat
  ip : List Char
  body : ContactBody
deriving DecidableEq

/-- The message a request stores when accepted. -/
def storedOfReq (r : Req) : Message :=
  storedOf r.now r.ip r.body

/-- Whether a request body passes the handler's validation. -/
def accepts (body : ContactBody) : Bool :=
  truthy body.name && truthy body.email && truthy body.message &&
    !(5000 < (jsToString body.message).length : Bool)

/-- Sequential execution of a batch of contact requests against the store;
each step is one atomic handler run (see `postContact`). -/
def runAppends (reqs : List Req) (fs : FileState) : FileState :=
  reqs.foldl (fun s r => (postContact r.now r.ip r.body s).2) fs

/-- Presented Basic-Auth credentials as decoded by the `basic-auth` package. -/
structure Credentials where
  name : String
  pass : String
deriving DecidableEq

/-- JavaScript `process.env.X || dflt`: an unset variable or one set to the
empty string (falsy) falls back to the default. -/
def envOr (v : Option String) (dflt : String) : String :=
  match v with
  | none => dflt
  | some s => if s = "" then dflt else s

/-- Embeds `requireAdmin` (src/server.js lines 100-110): true exactly when
credentials are present and both fields strictly equal the effective admin
pair `ADMIN_USER || 'admin'` / `ADMIN_PASS || 'password'`. -/
def requireAdmin (envUser envPass : Option String)
    (user : Option Credentials) : Bool :=
  match user with
  | none => false
  | some u => u.name = envOr envUser "admin" && u.pass = envOr envPass "password"

/-- An HTTP response as produced by the admin route: status, an optional
WWW-Authenticate header, an optional plain-text body, an optional JSON body. -/
structure HttpResponse where
  status : Nat
  wwwAuthenticate : Option String
  textBody : Option String
  jsonBody : Option (List Message)
deriving DecidableEq

/-- Embeds `GET /api/messages` (src/server.js lines 112-115) together with
its `requireAdmin` guard: 401 with the Basic challenge on auth failure,
otherwise 200 with the result of `readMessages()`. -/
def getMessagesHandler (envUser envPass : Option String)
    (user : Option Credentials) (fs : FileState) : HttpResponse :=
  if requireAdmin envUser envPass user then
    { status := 200, wwwAuthenticate := none, textBody := none
      jsonBody := some (readMessages fs) }
  else
    { status := 401, wwwAuthenticate := some "Basic realm=\"Admin Area\""
      textBody := some "Authentication required.", jsonBody := none }

/-- Per-address fixed-window rate-limiter state: window start instant and the
count of requests observed in the current window. -/
structure RateWindow where
  start : Nat
  count : Nat
deriving DecidableEq

/-- Modelled from the spec: the fixed-window counter of the admission gate.
The limiter itself is the third-party `express-rate-limit` middleware, not
code of this repository; only its configuration (src/server.js lines 38-42:
`windowMs`, `max`) is in the source. Per spec section 4.2: if the address has
no window or its window has elapsed, start a fresh window with count 1 and
admit; otherwise increment the count, admitting while the new count stays
within `maxN` and rejecting (without further state change) once it exceeds
it. -/
def rateLimitStep (windowMs maxN : Nat) (now : Nat) (w : Option RateWindow) :
    Bool × RateWindow :=
  match w with
  | none => (true, ⟨now, 1⟩)
  | some rw =>
    if rw.start + windowMs ≤ now then
      (true, ⟨now, 1⟩)
    else if rw.count + 1 ≤ maxN then
      (true, ⟨rw.start, rw.count + 1⟩)
    else
      (false, rw)

/-- Runs the admission gate over the request instants of one address,
returning the admit/reject decisions in order and the final window. -/
def runLimiter (windowMs maxN : Nat) :
    Option RateWindow → List Nat → List Bool × Option RateWindow
  | w, [] => ([], w)
  | w, t :: ts =>
    let step := rateLimitStep windowMs maxN t w
    let rest := runLimiter windowMs maxN (some step.2) ts
    (step.1 :: rest.1, rest.2)

/-- The outcome the spec prescribes for a read of the collection. -/
inductive ReadSpecResult where
  | storageFailure
  | okMsgs (msgs : List Message)
deriving DecidableEq

/-- Stated from the spec's words, for comparison with `readMessages`:
malformed pre-existing persisted data is a `StorageFailure` on read, while
first-run absence yields the empty collection. -/
def readMessagesSpec : FileState → ReadSpecResult
  | .absent => .okMsgs []
  | .malformed _ => .storageFailure
  | .wellFormed msgs => .okMsgs msgs

/-- Escape of one character as the spec describes the sanitizer: `<` and `>`
become their literal-safe encodings, everything else is untouched. -/
def escapeChar (c : Char) : List Char :=
  if c = '<' then "&lt;".data else if c = '>' then "&gt;".data else [c]

/-- Stated from the spec's words, for comparison with `sanitizeString`: the
sanitizer escapes `<` and `>` and applies no other transformation. -/
def sanitizeSpec (s : List Char) : List Char :=
  s.flatMap escapeChar

/-! ## Helper lemmas -/

lemma postContact_accepted (now : Nat) (ip : List Char) (body : ContactBody)
    (fs : FileState) (h : accepts body = true) :
    postContact now ip body fs =
      (.ok (storedOf now ip body),
       .wellFormed (storedOf now ip body :: readMessages fs)) := by
  simp only [accepts, Bool.and_eq_true, Bool.not_eq_true', decide_eq_false_iff_not] at h
  obtain ⟨⟨⟨h1, h2⟩, h3⟩, h4⟩ := h
  simp [postContact, h1, h2, h3, h4]

lemma postContact_ok_eq (now : Nat) (ip : List Char) (body : ContactBody)
    (fs : FileState) (m : Message)
    (h : (postContact now ip body fs).1 = .ok m) : m = storedOf now ip body := by
  unfold postContact at h
  split at h
  · simp at h
  · split at h
    · simp at h
    · simpa [eq_comm] using h

lemma postContact_ok_accepts (now : Nat) (ip : List Char) (body : ContactBody)
    (fs : FileState)
    (h : (postContact now ip body fs).1 = .ok (storedOf now ip body)) :
    accepts body = true := by
  unfold postContact at h
  by_cases h1 : truthy body.name
  · by_cases h2 : truthy body.email
    · by_cases h3 : truthy body.message
      · by_cases h4 : 5000 < (jsToString body.message).length
        · simp [h1, h2, h3, h4] at h
        · simp [accepts, h1, h2, h3, h4]
      · simp [h1, h2, h3] at h
    · simp [h1, h2] at h
  · simp [h1] at h

lemma runAppends_wellFormed (reqs : List Req) (st : List Message)
    (hacc : ∀ r ∈ reqs, accepts r.body = true) :
    runAppends reqs (.wellFormed st) =
      .wellFormed ((reqs.map storedOfReq).reverse ++ st) := by
  revert hacc
  induction reqs generalizing st with
  | nil => intro _; simp [runAppends]
  | cons r rs ih =>
    intro hacc
    have hr := hacc r (List.mem_cons_self r rs)
    have hrs : ∀ x ∈ rs, accepts x.body = true :=
      fun x hx => hacc x (List.mem_cons_of_mem r hx)
    have hstep : (postContact r.now r.ip r.body (.wellFormed st)).2 =
        .wellFormed (storedOfReq r :: st) := by
      rw [postContact_accepted _ _ _ _ hr]
      rfl
    calc runAppends (r :: rs) (.wellFormed st)
        = runAppends rs (.wellFormed (storedOfReq r :: st)) := by
          simp only [runAppends, List.foldl_cons, hstep]
      _ = .wellFormed ((rs.map storedOfReq).reverse ++ (storedOfReq r :: st)) :=
          ih _ hrs
      _ = .wellFormed (((r :: rs).map storedOfReq).reverse ++ st) := by
          simp [List.reverse_cons, List.append_assoc]

/-! ## Concrete requests used by witnesses and counterexamples -/

/-- A valid contact request arriving at clock instant 100. -/
def reqA : Req :=
  ⟨100, "1.2.3.4".data, ⟨.strV "Alice", .strV "alice@example.com", .strV "hello"⟩⟩

/-- A valid contact request arriving at clock instant 101. -/
def reqB : Req :=
  ⟨101, "5.6.7.8".data, ⟨.strV "Bob", .strV "bob@example.com", .strV "hi"⟩⟩

/-- A valid contact request from a different caller that arrives within the
same clock millisecond as `reqA`. -/
def reqSameMs : Req :=
  ⟨100, "9.9.9.9".data, ⟨.strV "Carol", .strV "carol@example.com", .strV "yo"⟩⟩

/-! ## C1 -/

/-- C1 (amended): any batch of K accepted concurrent appends (serialized by
the event loop, in any arrival order) against a store of S messages leaves
exactly S + K entries and loses no update — every request's stored message is
present; the ids are all distinct provided the appends observe pairwise
distinct clock values also distinct from the pre-existing ids. (As literally
stated the claim fails: two appends in the same clock millisecond receive the
same `Date.now()` id, see the counterexample.) -/
theorem concurrent_appends_atomic (reqs : List Req) (st : List Message)
    (hacc : ∀ r ∈ reqs, accepts r.body = true) :
    (readMessages (runAppends reqs (.wellFormed st))).length = st.length + reqs.length
    ∧ (∀ r ∈ reqs, storedOfReq r ∈ readMessages (runAppends reqs (.wellFormed st)))
    ∧ ((reqs.map Req.now ++ st.map Message.id).Nodup →
        ((readMessages (runAppends reqs (.wellFormed st))).map Message.id).Nodup) := by
  rw [runAppends_wellFormed reqs st hacc]
  simp only [readMessages]
  refine ⟨by simp [Nat.add_comm], ?_, ?_⟩
  · intro r hr
    exact List.mem_append.mpr (.inl (List.mem_reverse.mpr (List.mem_map_of_mem _ hr)))
  · intro hnd
    have hmapid : ((reqs.map storedOfReq).reverse ++ st).map Message.id =
        (reqs.map Req.now).reverse ++ st.map Message.id := by
      simp only [List.map_append, List.map_reverse, List.map_map]
      rfl
    rw [hmapid]
    have hperm : List.Perm ((reqs.map Req.now).reverse ++ st.map Message.id)
        (reqs.map Req.now ++ st.map Message.id) :=
      List.Perm.append_right _ (List.reverse_perm _)
    exact hperm.nodup_iff.mpr hnd

/-- Witness for C1: two accepted appends at distinct instants against the
empty store leave exactly two entries with distinct ids. -/
theorem concurrent_appends_atomic_witness :
    (readMessages (runAppends [reqA, reqB] (.wellFormed []))).length = 0 + 2
    ∧ ((readMessages (runAppends [reqA, reqB] (.wellFormed []))).map Message.id).Nodup :=
  ⟨(concurrent_appends_atomic [reqA, reqB] [] (by decide)).1,
   (concurrent_appends_atomic [reqA, reqB] [] (by decide)).2.2 (by decide)⟩

/-- Counterexample to C1 as stated: two accepted appends in the same clock
millisecond both land in the store (no lost update, S + K = 2 entries), but
their ids — both `Date.now()` of that millisecond — coincide, so the entries
do not all have distinct ids. -/
theorem concurrent_appends_same_ms_cx :
    (readMessages (runAppends [reqA, reqSameMs] (.wellFormed []))).length = 0 + 2
    ∧ ¬ ((readMessages (runAppends [reqA, reqSameMs] (.wellFormed []))).map
          Message.id).Nodup := by
  decide

/-! ## C2 -/

/-- C2 (amended): the id of a stored message is assigned by the store as the
clock value at append time — never taken from the caller's input, which does
not appear in the id at all — and two appends executed at distinct clock
values receive distinct ids. (As literally stated the claim fails: two
appends within the same clock millisecond receive the same id, see the
counterexample.) -/
theorem store_assigns_distinct_ids (t1 t2 : Nat) (ip1 ip2 : List Char)
    (b1 b2 : ContactBody) (fs1 fs2 : FileState) (m1 m2 : Message)
    (h1 : (postContact t1 ip1 b1 fs1).1 = .ok m1)
    (h2 : (postContact t2 ip2 b2 fs2).1 = .ok m2) :
    m1.id = t1 ∧ m2.id = t2 ∧ (t1 ≠ t2 → m1.id ≠ m2.id) := by
  have e1 : m1 = storedOf t1 ip1 b1 := postContact_ok_eq _ _ _ _ _ h1
  have e2 : m2 = storedOf t2 ip2 b2 := postContact_ok_eq _ _ _ _ _ h2
  subst e1; subst e2
  exact ⟨rfl, rfl, fun hne => hne⟩

/-- Witness for C2: two concrete accepted appends at instants 100 and 101
receive the ids 100 and 101, which differ. -/
theorem store_assigns_distinct_ids_witness :
    (storedOfReq reqA).id = 100 ∧ (storedOfReq reqB).id = 101
    ∧ ((100 : Nat) ≠ 101 → (storedOfReq reqA).id ≠ (storedOfReq reqB).id) :=
  store_assigns_distinct_ids 100 101 reqA.ip reqB.ip reqA.body reqB.body
    (.wellFormed []) (.wellFormed []) (storedOfReq reqA) (storedOfReq reqB)
    (by decide) (by decide)

/-- Counterexample to C2 as stated: two distinct accepted append operations
(different callers, different bodies) executed in the same clock millisecond
are assigned the same id. -/
theorem store_id_collision_cx :
    (postContact 100 reqA.ip reqA.body (.wellFormed [])).1 = .ok (storedOfReq reqA)
    ∧ (postContact 100 reqSameMs.ip reqSameMs.body (.wellFormed [])).1 =
        .ok (storedOfReq reqSameMs)
    ∧ reqA.body ≠ reqSameMs.body
    ∧ (storedOfReq reqA).id = (storedOfReq reqSameMs).id := by
  decide

/-! ## C3 -/

/-- C3 (amended): malformed persisted data is not reported as a storage
failure — `readMessages` catches the parse error and returns the empty
collection, exactly the result of the first-run absence case, and an
authorized admin read over a malformed store answers 200 with an empty
array; only a well-formed file yields its contents. -/
theorem read_malformed_yields_empty (raw : List Char) (msgs : List Message)
    (envU envP : Option String) :
    readMessages (.malformed raw) = readMessages .absent
    ∧ readMessages (.wellFormed msgs) = msgs
    ∧ getMessagesHandler envU envP
        (some ⟨envOr envU "admin", envOr envP "password"⟩) (.malformed raw) =
        ⟨200, none, none, some []⟩ := by
  refine ⟨rfl, rfl, ?_⟩
  simp [getMessagesHandler, requireAdmin, readMessages]

/-- Counterexample to C3 as stated: for a concrete malformed persisted file
the spec-side reader reports a storage failure, while the code's reader
silently returns the empty collection — precisely the behavior the claim
says does not happen. -/
theorem read_malformed_cx :
    readMessagesSpec (.malformed "not json".data) = .storageFailure
    ∧ readMessages (.malformed "not json".data) = []
    ∧ readMessagesSpec (.malformed "not json".data) ≠
        .okMsgs (readMessages (.malformed "not json".data)) := by
  decide

/-! ## C4 -/

/-- C4 (amended): when both environment credentials are configured non-empty
the gate accepts exactly that pair; but when they are not configured (unset,
or set to the empty string, which JavaScript || treats as unset) the gate
falls back to the hardcoded built-in pair admin/password, which is then
accepted. -/
theorem admin_gate_credentials (u p : String) (hu : u ≠ "") (hp : p ≠ "")
    (c : Credentials) :
    (requireAdmin (some u) (some p) (some c) = true ↔ c.name = u ∧ c.pass = p)
    ∧ requireAdmin none none (some ⟨"admin", "password"⟩) = true := by
  constructor
  · simp [requireAdmin, envOr, hu, hp]
  · decide

/-- Witness for C4: with configured pair alice/s3cret the gate accepts
exactly that pair, while with nothing configured it accepts the built-in
defaults. -/
theorem admin_gate_credentials_witness :
    (requireAdmin (some "alice") (some "s3cret") (some ⟨"alice", "s3cret"⟩) = true
      ↔ ("alice" : String) = "alice" ∧ ("s3cret" : String) = "s3cret")
    ∧ requireAdmin none none (some ⟨"admin", "password"⟩) = true :=
  admin_gate_credentials "alice" "s3cret" (by decide) (by decide)
    ⟨"alice", "s3cret"⟩

/-- Counterexample to C4 as stated: with no external credentials configured
the hardcoded built-in pair admin/password is accepted, and the admin route
answers it with 200 and the stored collection. -/
theorem admin_gate_hardcoded_cx :
    requireAdmin none none (some ⟨"admin", "password"⟩) = true
    ∧ getMessagesHandler none none (some ⟨"admin", "password"⟩)
        (.wellFormed []) = ⟨200, none, none, some []⟩ := by
  decide

/-! ## C5 -/

lemma replaceAll_append (s t : List Char) (c : Char) (r : List Char) :
    replaceAll (s ++ t) c r = replaceAll s c r ++ replaceAll t c r := by
  simp [replaceAll]

lemma replaceAll_cons (c : Char) (s : List Char) (a : Char) (r : List Char) :
    replaceAll (c :: s) a r = (if c = a then r else [c]) ++ replaceAll s a r := by
  by_cases h : c = a <;> simp [replaceAll, h]

lemma sanitizeSpec_cons (c : Char) (s : List Char) :
    sanitizeSpec (c :: s) = escapeChar c ++ sanitizeSpec s := by
  simp [sanitizeSpec]

lemma replaceAll_lt_gt (s : List Char) :
    replaceAll (replaceAll s '<' "&lt;".data) '>' "&gt;".data = sanitizeSpec s := by
  induction s with
  | nil => rfl
  | cons c cs ih =>
    rw [replaceAll_cons, replaceAll_append, ih, sanitizeSpec_cons]
    congr 1
    by_cases h1 : c = '<'
    · subst h1; decide
    · rw [if_neg h1]
      by_cases h2 : c = '>'
      · subst h2; decide
      · simp [replaceAll, escapeChar, h1, h2]

/-- C5 (amended): the sanitizer first trims leading and trailing whitespace
of the coerced string (and maps falsy inputs to the empty string), and only
then escapes every < to &lt; and every > to &gt; leaving all other remaining
characters unchanged; in particular "<script>" is stored as
&lt;script&gt;. -/
theorem sanitizer_escape_after_trim (v : JsValue) :
    sanitizeString v =
      (if truthy v then sanitizeSpec (jsTrim (jsToString v)) else [])
    ∧ sanitizeString (.strV "<script>") = "&lt;script&gt;".data := by
  refine ⟨?_, by decide⟩
  by_cases h : truthy v
  · unfold sanitizeString
    rw [if_pos h, if_pos h]
    exact replaceAll_lt_gt _
  · unfold sanitizeString
    rw [if_neg h, if_neg h]

/-- Counterexample to C5 as stated: on input " a" the sanitizer does not
leave every character other than < and > unchanged — it also trims, dropping
the leading space. -/
theorem sanitizer_trims_cx :
    sanitizeString (.strV " a") = "a".data
    ∧ sanitizeString (.strV " a") ≠ sanitizeSpec (jsToString (.strV " a")) := by
  decide

/-! ## C6 -/

lemma postContact_rejected (now : Nat) (ip : List Char) (body : ContactBody)
    (fs : FileState) (h : ¬ accepts body = true) :
    (postContact now ip body fs).2 = fs := by
  unfold postContact
  by_cases h1 : truthy body.name
  · by_cases h2 : truthy body.email
    · by_cases h3 : truthy body.message
      · by_cases h4 : 5000 < (jsToString body.message).length
        · simp [h1, h2, h3, h4]
        · exact absurd (by simp [accepts, h1, h2, h3, h4]) h
      · simp [h1, h2, h3]
    · simp [h1, h2]
  · simp [h1]

lemma mem_runAppends (reqs : List Req) (fs : FileState) (m : Message)
    (hm : m ∈ readMessages (runAppends reqs fs)) :
    m ∈ readMessages fs ∨ ∃ r ∈ reqs, accepts r.body = true ∧ m = storedOfReq r := by
  induction reqs generalizing fs with
  | nil => exact .inl (by simpa [runAppends] using hm)
  | cons r rs ih =>
    have hm' : m ∈ readMessages (runAppends rs ((postContact r.now r.ip r.body fs).2)) := by
      simpa [runAppends, List.foldl_cons] using hm
    rcases ih _ hm' with h | ⟨x, hx, hax, hmx⟩
    · by_cases ha : accepts r.body = true
      · rw [postContact_accepted _ _ _ _ ha] at h
        simp only [readMessages] at h
        rcases List.mem_cons.mp h with h0 | h1
        · exact .inr ⟨r, List.mem_cons_self r rs, ha, h0⟩
        · exact .inl h1
      · rw [postContact_rejected _ _ _ _ ha] at h
        exact .inl h
    · exact .inr ⟨x, List.mem_cons_of_mem r hx, hax, hmx⟩

lemma escapeChar_length_le (c : Char) : (escapeChar c).length ≤ 4 := by
  unfold escapeChar
  split_ifs <;> simp

lemma sanitizeSpec_length_le (s : List Char) :
    (sanitizeSpec s).length ≤ 4 * s.length := by
  induction s with
  | nil => simp [sanitizeSpec]
  | cons c cs ih =>
    rw [sanitizeSpec_cons]
    simp only [List.length_append, List.length_cons]
    calc (escapeChar c).length + (sanitizeSpec cs).length
        ≤ 4 + 4 * cs.length := Nat.add_le_add (escapeChar_length_le c) ih
      _ = 4 * (cs.length + 1) := by ring

lemma jsTrim_length_le (s : List Char) : (jsTrim s).length ≤ s.length := by
  unfold jsTrim
  rw [List.length_reverse]
  calc ((s.dropWhile Char.isWhitespace).reverse.dropWhile Char.isWhitespace).length
      ≤ (s.dropWhile Char.isWhitespace).reverse.length :=
        (List.dropWhile_sublist _).length_le
    _ = (s.dropWhile Char.isWhitespace).length := List.length_reverse _
    _ ≤ s.length := (List.dropWhile_sublist _).length_le

lemma sanitizeString_length_le (v : JsValue) :
    (sanitizeString v).length ≤ 4 * (jsToString v).length := by
  by_cases h : truthy v
  · unfold sanitizeString
    rw [if_pos h, replaceAll_lt_gt]
    calc (sanitizeSpec (jsTrim (jsToString v))).length
        ≤ 4 * (jsTrim (jsToString v)).length := sanitizeSpec_length_le _
      _ ≤ 4 * (jsToString v).length :=
        Nat.mul_le_mul_left _ (jsTrim_length_le _)
  · unfold sanitizeString
    rw [if_neg h]
    simp

/-- C6 (amended): every message persisted by a run of submissions against an
initially empty store comes from an accepted submission: the raw fields were
truthy and the raw coerced message had length at most 5000, and the stored
fields are their sanitized forms; the stored message's length is therefore
bounded by 4 * 5000 (escaping expands each character at most fourfold), but —
as the counterexample shows — the claim's literal reading fails: a stored
field can be empty (whitespace-only raw input) and the stored message can
exceed 5000. -/
theorem persisted_from_accepted (reqs : List Req) (m : Message)
    (hm : m ∈ readMessages (runAppends reqs (.wellFormed []))) :
    ∃ r ∈ reqs, accepts r.body = true ∧ m = storedOfReq r
      ∧ truthy r.body.name = true ∧ truthy r.body.email = true
      ∧ truthy r.body.message = true
      ∧ (jsToString r.body.message).length ≤ 5000
      ∧ m.message.length ≤ 4 * 5000 := by
  rcases mem_runAppends reqs _ m hm with h | ⟨r, hr, har, hmr⟩
  · simp [readMessages] at h
  · refine ⟨r, hr, har, hmr, ?_⟩
    have hc := har
    simp only [accepts, Bool.and_eq_true, Bool.not_eq_true',
      decide_eq_false_iff_not, Nat.not_lt] at hc
    obtain ⟨⟨⟨h1, h2⟩, h3⟩, h4⟩ := hc
    subst hmr
    refine ⟨h1, h2, h3, h4, ?_⟩
    calc (storedOfReq r).message.length
        = (sanitizeString r.body.message).length := rfl
      _ ≤ 4 * (jsToString r.body.message).length := sanitizeString_length_le _
      _ ≤ 4 * 5000 := Nat.mul_le_mul_left _ h4

/-- Witness for C6: the message stored for the concrete request `reqA` indeed
arises from an accepted submission with the stated bounds. -/
theorem persisted_from_accepted_witness :
    storedOfReq reqA ∈ readMessages (runAppends [reqA] (.wellFormed []))
    ∧ ∃ r ∈ [reqA], accepts r.body = true ∧ storedOfReq reqA = storedOfReq r
        ∧ truthy r.body.name = true ∧ truthy r.body.email = true
        ∧ truthy r.body.message = true
        ∧ (jsToString r.body.message).length ≤ 5000
        ∧ (storedOfReq reqA).message.length ≤ 4 * 5000 :=
  ⟨by decide, persisted_from_accepted [reqA] (storedOfReq reqA) (by decide)⟩

/-- A submission whose name is a single space: truthy, so validation accepts
it, but the sanitizer trims it to the empty string. -/
def reqBlankName : Req :=
  ⟨7, "8.8.8.8".data, ⟨.strV " ", .strV "e@x", .strV "hi"⟩⟩

/-- Counterexample to C6 as stated: the whitespace-only name " " passes
validation (it is a non-empty string), yet the persisted collection then
contains a message whose stored name is empty — violating the claimed
invariant that every persisted message has a non-empty name. -/
theorem persisted_empty_name_cx :
    accepts reqBlankName.body = true
    ∧ (readMessages (runAppends [reqBlankName] (.wellFormed []))).map
        Message.name = [[]] := by
  decide

/-! ## C7 -/

/-- C7 (confirmed): for any environment configuration, a GET of the admin
route with credentials absent, or with either field differing from the
effective admin pair, gets exactly the 401 response carrying the challenge
header Basic realm="Admin Area" and the fixed text body — identical whichever
field was wrong — while the exact pair gets 200 with the full stored
collection. -/
theorem admin_route_responses (envU envP : Option String)
    (user : Option Credentials) (fs : FileState) :
    ((user = none ∨ ∀ c : Credentials, user = some c →
        c.name ≠ envOr envU "admin" ∨ c.pass ≠ envOr envP "password") →
      getMessagesHandler envU envP user fs =
        ⟨401, some "Basic realm=\"Admin Area\"",
         some "Authentication required.", none⟩)
    ∧ (user = some ⟨envOr envU "admin", envOr envP "password"⟩ →
      getMessagesHandler envU envP user fs =
        ⟨200, none, none, some (readMessages fs)⟩) := by
  constructor
  · intro h
    have hfail : requireAdmin envU envP user = false := by
      cases user with
      | none => rfl
      | some c =>
        rcases h with h | h
        · exact absurd h (by simp)
        · rcases h c rfl with hn | hp
          · simp [requireAdmin, hn]
          · simp [requireAdmin, hp]
    simp [getMessagesHandler, hfail]
  · intro h
    subst h
    have hok : requireAdmin envU envP
        (some ⟨envOr envU "admin", envOr envP "password"⟩) = true := by
      simp [requireAdmin]
    simp [getMessagesHandler, hok]

/-- Witness for C7: with configured pair root/s3cret, an unauthenticated GET
gets the 401 challenge, a wrong-password GET gets the identical 401, and the
exact pair gets 200 with the stored collection. -/
theorem admin_route_responses_witness :
    getMessagesHandler (some "root") (some "s3cret") none (.wellFormed []) =
      ⟨401, some "Basic realm=\"Admin Area\"",
       some "Authentication required.", none⟩
    ∧ getMessagesHandler (some "root") (some "s3cret")
        (some ⟨"root", "wrong"⟩) (.wellFormed []) =
      ⟨401, some "Basic realm=\"Admin Area\"",
       some "Authentication required.", none⟩
    ∧ getMessagesHandler (some "root") (some "s3cret")
        (some ⟨"root", "s3cret"⟩) (.wellFormed [⟨1, [], [], [], [], 1⟩]) =
      ⟨200, none, none, some [⟨1, [], [], [], [], 1⟩]⟩ := by
  refine ⟨?_, ?_, ?_⟩
  · exact (admin_route_responses (some "root") (some "s3cret") none
      (.wellFormed [])).1 (.inl rfl)
  · exact (admin_route_responses (some "root") (some "s3cret")
      (some ⟨"root", "wrong"⟩) (.wellFormed [])).1
      (.inr fun c hc => by cases hc; exact .inr (by decide))
  · exact (admin_route_responses (some "root") (some "s3cret")
      (some ⟨"root", "s3cret"⟩) (.wellFormed [⟨1, [], [], [], [], 1⟩])).2
      (by decide)

/-! ## C8 -/

lemma rl_same_admit (W N t1 c t : Nat) (h : t < t1 + W) (hc : c + 1 ≤ N) :
    rateLimitStep W N t (some ⟨t1, c⟩) = (true, ⟨t1, c + 1⟩) := by
  simp [rateLimitStep, Nat.not_le.mpr h, hc]

lemma rl_same_reject (W N t1 c t : Nat) (h : t < t1 + W) (hc : N < c + 1) :
    rateLimitStep W N t (some ⟨t1, c⟩) = (false, ⟨t1, c⟩) := by
  simp [rateLimitStep, Nat.not_le.mpr h, Nat.not_le.mpr hc]

lemma rl_elapsed (W N t1 c t : Nat) (h : t1 + W ≤ t) :
    rateLimitStep W N t (some ⟨t1, c⟩) = (true, ⟨t, 1⟩) := by
  simp [rateLimitStep, h]

lemma runLimiter_nil (W N : Nat) (w : Option RateWindow) :
    runLimiter W N w [] = ([], w) := rfl

lemma runLimiter_cons (W N : Nat) (w : Option RateWindow) (t : Nat)
    (ts : List Nat) :
    runLimiter W N w (t :: ts) =
      ((rateLimitStep W N t w).1 ::
        (runLimiter W N (some (rateLimitStep W N t w).2) ts).1,
       (runLimiter W N (some (rateLimitStep W N t w).2) ts).2) := rfl

/-- C8 (confirmed, against the spec-modelled admission gate): with
windowMs = 60000 and max = 6, for one address, six requests inside the first
request's window are all admitted, a seventh inside the same window is
rejected, and the first request at or after the window's end is admitted and
starts a fresh window with count 1. -/
theorem rate_limit_six_window (t1 t2 t3 t4 t5 t6 t7 t8 : Nat)
    (h2 : t2 < t1 + 60000) (h3 : t3 < t1 + 60000) (h4 : t4 < t1 + 60000)
    (h5 : t5 < t1 + 60000) (h6 : t6 < t1 + 60000) (h7 : t7 < t1 + 60000)
    (h8 : t1 + 60000 ≤ t8) :
    runLimiter 60000 6 none [t1, t2, t3, t4, t5, t6, t7] =
      ([true, true, true, true, true, true, false], some ⟨t1, 6⟩)
    ∧ runLimiter 60000 6 none [t1, t2, t3, t4, t5, t6, t7, t8] =
      ([true, true, true, true, true, true, false, true], some ⟨t8, 1⟩) := by
  have s1 : rateLimitStep 60000 6 t1 none = (true, ⟨t1, 1⟩) := rfl
  have s2 := rl_same_admit 60000 6 t1 1 t2 h2 (by decide)
  have s3 := rl_same_admit 60000 6 t1 2 t3 h3 (by decide)
  have s4 := rl_same_admit 60000 6 t1 3 t4 h4 (by decide)
  have s5 := rl_same_admit 60000 6 t1 4 t5 h5 (by decide)
  have s6 := rl_same_admit 60000 6 t1 5 t6 h6 (by decide)
  have s7 := rl_same_reject 60000 6 t1 6 t7 h7 (by decide)
  have s8 := rl_elapsed 60000 6 t1 6 t8 h8
  constructor <;>
    simp only [runLimiter_cons, runLimiter_nil, s1, s2, s3, s4, s5, s6, s7, s8]

/-- Witness for C8: concrete request instants 0..6 followed by 60000 exhibit
the six admissions, the seventh rejection and the fresh window of count 1. -/
theorem rate_limit_six_window_witness :
    runLimiter 60000 6 none [0, 1, 2, 3, 4, 5, 6] =
      ([true, true, true, true, true, true, false], some ⟨0, 6⟩)
    ∧ runLimiter 60000 6 none [0, 1, 2, 3, 4, 5, 6, 60000] =
      ([true, true, true, true, true, true, false, true], some ⟨60000, 1⟩) :=
  rate_limit_six_window 0 1 2 3 4 5 6 60000 (by decide) (by decide) (by decide)
    (by decide) (by decide) (by decide) (by decide)

/-! ## C9 -/

/-- C9 (confirmed): after any batch of accepted appends, reading the store
yields the reverse of insertion order — each accepted entry was unshifted to
the head, so the most recently appended message is the first element — and
when the clock is non-decreasing across the batch (as successive Date.now()
calls are) the entries of an initially empty store come back ordered by
receivedAt descending. -/
theorem readAll_newest_first (reqs : List Req) (st : List Message)
    (hacc : ∀ r ∈ reqs, accepts r.body = true)
    (hmon : List.Sorted (· ≤ ·) (reqs.map Req.now)) :
    readMessages (runAppends reqs (.wellFormed st)) =
      (reqs.map storedOfReq).reverse ++ st
    ∧ (reqs ≠ [] → (readMessages (runAppends reqs (.wellFormed st))).head? =
        (reqs.map storedOfReq).getLast?)
    ∧ (st = [] → List.Sorted (· ≥ ·)
        ((readMessages (runAppends reqs (.wellFormed st))).map
          Message.receivedAt)) := by
  rw [runAppends_wellFormed reqs st hacc]
  simp only [readMessages]
  refine ⟨trivial, ?_, ?_⟩
  · intro hne
    rw [← List.head?_reverse]
    cases hrev : (reqs.map storedOfReq).reverse with
    | nil =>
      exfalso
      apply hne
      have h0 : reqs.map storedOfReq = [] := by
        simpa using congrArg List.reverse hrev
      exact List.map_eq_nil_iff.mp h0
    | cons a t => simp [hrev, List.cons_append]
  · intro hst
    subst hst
    simp only [List.append_nil]
    rw [List.map_reverse]
    have hmap : (reqs.map storedOfReq).map Message.receivedAt =
        reqs.map Req.now := by
      rw [List.map_map]; rfl
    rw [hmap]
    exact List.pairwise_reverse.mpr hmon

/-- Witness for C9: two accepted appends at instants 100 then 101 read back
newest-first, with the most recent append as the first element and the
receivedAt values descending. -/
theorem readAll_newest_first_witness :
    readMessages (runAppends [reqA, reqB] (.wellFormed [])) =
      ([reqA, reqB].map storedOfReq).reverse ++ []
    ∧ (readMessages (runAppends [reqA, reqB] (.wellFormed []))).head? =
        ([reqA, reqB].map storedOfReq).getLast?
    ∧ List.Sorted (· ≥ ·)
        ((readMessages (runAppends [reqA, reqB] (.wellFormed []))).map
          Message.receivedAt) := by
  obtain ⟨h1, h2, h3⟩ := readAll_newest_first [reqA, reqB] [] (by decide)
    (by simp [reqA, reqB])
  exact ⟨h1, h2 (by simp), h3 rfl⟩

/-! ## C10 -/

/-- C10 (confirmed): the write-path validation accepts exactly the
submissions whose three fields are all truthy and whose message, coerced to
a string, has length at most 5000; acceptance is entirely independent of the
email's content among truthy values (no format check of any kind), and an
accepted submission is stored as the sanitized string coercions of its raw
values, whatever their JavaScript type. -/
theorem validation_accepts_iff (now : Nat) (ip : List Char)
    (body : ContactBody) (fs : FileState) :
    ((postContact now ip body fs).1 = .ok (storedOf now ip body) ↔
      (truthy body.name = true ∧ truthy body.email = true ∧
       truthy body.message = true ∧ (jsToString body.message).length ≤ 5000))
    ∧ (∀ e1 e2 : JsValue, truthy e1 = true → truthy e2 = true →
        accepts ⟨body.name, e1, body.message⟩ =
          accepts ⟨body.name, e2, body.message⟩) := by
  constructor
  · constructor
    · intro h
      have ha := postContact_ok_accepts _ _ _ _ h
      simp only [accepts, Bool.and_eq_true, Bool.not_eq_true',
        decide_eq_false_iff_not, Nat.not_lt] at ha
      exact ⟨ha.1.1.1, ha.1.1.2, ha.1.2, ha.2⟩
    · intro ⟨h1, h2, h3, h4⟩
      have ha : accepts body = true := by
        simp [accepts, h1, h2, h3, Nat.not_lt.mpr h4]
      rw [postContact_accepted _ _ _ _ ha]
  · intro e1 e2 he1 he2
    simp [accepts, he1, he2]

/-- Witness for C10: a submission whose name is the number 5, email a plain
object and message a boolean — all non-strings, none email-shaped — is
accepted and stored with the coerced name "5"; and two truthy emails of very
different shapes are treated identically by validation. -/
theorem validation_accepts_iff_witness :
    (postContact 7 "ip".data ⟨.numV 5, .objV, .boolV true⟩ (.wellFormed [])).1 =
      .ok (storedOf 7 "ip".data ⟨.numV 5, .objV, .boolV true⟩)
    ∧ (storedOf 7 "ip".data ⟨.numV 5, .objV, .boolV true⟩).name = "5".data
    ∧ accepts ⟨.numV 5, .strV "not-an-email", .boolV true⟩ =
        accepts ⟨.numV 5, .strV "a@b.c", .boolV true⟩ := by
  refine ⟨?_, by decide, ?_⟩
  · exact (validation_accepts_iff 7 "ip".data ⟨.numV 5, .objV, .boolV true⟩
      (.wellFormed [])).1.mpr (by refine ⟨by decide, by decide, by decide, by decide⟩)
  · exact (validation_accepts_iff 7 "ip".data ⟨.numV 5, .objV, .boolV true⟩
      (.wellFormed [])).2 (.strV "not-an-email") (.strV "a@b.c")
      (by decide) (by decide)
